import Mathlib

/-!
Shallow embedding of the core plugin framework (`backend/core/framework.py`)
and pipeline engine (`backend/core/pipeline_engine.py`) of the drawRAG
repository, with theorems settling the frozen claims about them.

Modelling conventions:
* Python dicts are insertion-ordered association lists (`List (k × v)`);
  assignment updates the first binding in place or appends a new one,
  matching CPython dict semantics.
* Python values appearing as capability arguments/results are modelled by
  the inductive `Value` below (ints, strings, booleans, None, lists,
  dicts).  `pyStr`/`pyRepr` mirror `str()`/`repr()` on these constructors
  (string escaping is not modelled; all strings used in concrete
  statements are plain ASCII without quotes or backslashes).
* A capability handler is modelled as a deterministic stateful callable:
  a function of its own past invocation count and of the call's
  positional/keyword arguments, returning either a value or a raised
  exception (`Except String Value`).  The framework state carries the
  per-(plugin, capability) invocation counters, so "the handler was
  invoked n times" is directly observable.
* Logging is ignored; event hooks and error handlers are modelled as not
  mutating framework state (the claims under study do not involve
  reentrant hooks).
-/

/-- Python-style values used as capability arguments and results. -/
inductive Value where
  | int (n : Int)
  | str (s : String)
  | bool (b : Bool)
  | none
  | list (l : List Value)
  | dict (l : List (String × Value))

namespace PyDict

/-- Dict lookup, i.e. `d.get(k)` / `d[k]`, on an insertion-ordered dict. -/
def lookup {α β : Type} [DecidableEq α] (l : List (α × β)) (k : α) : Option β :=
  match l with
  | [] => Option.none
  | (k', v) :: rest => if k' = k then some v else lookup rest k

/-- Dict assignment `d[k] = v` on an insertion-ordered dict: update in place
if the key exists, else append (CPython dict assignment semantics). -/
def insert {α β : Type} [DecidableEq α] (l : List (α × β)) (k : α) (v : β) :
    List (α × β) :=
  match l with
  | [] => [(k, v)]
  | (k', v') :: rest =>
    if k' = k then (k, v) :: rest else (k', v') :: insert rest k v

/-- Dict deletion `del d[k]` on an insertion-ordered dict (no error if absent). -/
def erase {α β : Type} [DecidableEq α] (l : List (α × β)) (k : α) :
    List (α × β) :=
  match l with
  | [] => []
  | (k', v') :: rest =>
    if k' = k then rest else (k', v') :: erase rest k

/-- Membership test `k in d`. -/
def hasKey {α β : Type} [DecidableEq α] (l : List (α × β)) (k : α) : Bool :=
  (lookup l k).isSome

theorem lookup_insert {α β : Type} [DecidableEq α] (l : List (α × β)) (k : α) (v : β) :
    lookup (insert l k v) k = some v := by
  induction l with
  | nil => simp [insert, lookup]
  | cons hd tl ih =>
    obtain ⟨k', v'⟩ := hd
    by_cases h : k' = k <;> simp [insert, lookup, h, ih]

theorem lookup_insert_ne {α β : Type} [DecidableEq α] (l : List (α × β)) (k k' : α)
    (v : β) (h : k ≠ k') : lookup (insert l k v) k' = lookup l k' := by
  induction l with
  | nil => simp [insert, lookup, h]
  | cons hd tl ih =>
    obtain ⟨k₀, v₀⟩ := hd
    by_cases h₀ : k₀ = k
    · subst h₀
      simp [insert, lookup, h]
    · simp [insert, lookup, h₀, ih]

theorem lookup_erase_self {α β : Type} [DecidableEq α] (l : List (α × β)) (k : α)
    (hnd : (l.map Prod.fst).Nodup) : lookup (erase l k) k = Option.none := by
  induction l with
  | nil => simp [erase, lookup]
  | cons hd tl ih =>
    obtain ⟨k', v'⟩ := hd
    simp only [List.map_cons, List.nodup_cons] at hnd
    by_cases h : k' = k
    · subst h
      simp only [erase, if_pos rfl]
      -- k is not a key of tl, so lookup misses
      clear ih
      induction tl with
      | nil => simp [lookup]
      | cons hd₂ tl₂ ih₂ =>
        obtain ⟨k₂, v₂⟩ := hd₂
        simp only [List.map_cons, List.mem_cons, not_or] at hnd
        simp only [List.nodup_cons] at *
        have hk₂ : k₂ ≠ k' := fun h => hnd.1.1 h.symm
        simp only [lookup, if_neg hk₂]
        exact ih₂ ⟨fun hm => hnd.1.2 hm, hnd.2.2⟩
    · simp [erase, lookup, h, ih hnd.2]

theorem lookup_erase_ne {α β : Type} [DecidableEq α] (l : List (α × β)) (k k' : α)
    (h : k ≠ k') : lookup (erase l k) k' = lookup l k' := by
  induction l with
  | nil => simp [erase, lookup]
  | cons hd tl ih =>
    obtain ⟨k₀, v₀⟩ := hd
    by_cases h₀ : k₀ = k
    · subst h₀
      simp [erase, lookup, h]
    · simp [erase, lookup, h₀, ih]

end PyDict

/-! ### Python `str()` / `repr()` rendering (restricted to `Value`) -/

mutual

/-- Python `repr(v)` for the modelled values (string escaping not modelled). -/
def pyRepr : Value → String
  | .int n => if n < 0 then "-" ++ toString (-n).toNat else toString n.toNat
  | .str s => "'" ++ s ++ "'"
  | .bool b => if b then "True" else "False"
  | .none => "None"
  | .list l => "[" ++ pyReprJoin l ++ "]"
  | .dict l => "\x7b" ++ pyReprJoinDict l ++ "\x7d"

/-- Rendering of `", ".join(repr(x) for x in l)`. -/
def pyReprJoin : List Value → String
  | [] => ""
  | [v] => pyRepr v
  | v :: rest => pyRepr v ++ ", " ++ pyReprJoin rest

/-- Rendering of the comma-joined `repr(k): repr(v)` pairs of a dict. -/
def pyReprJoinDict : List (String × Value) → String
  | [] => ""
  | [(k, v)] => "'" ++ k ++ "': " ++ pyRepr v
  | (k, v) :: rest => "'" ++ k ++ "': " ++ pyRepr v ++ ", " ++ pyReprJoinDict rest

end

/-- Python `str(v)`: like `repr` except a top-level string prints unquoted. -/
def pyStr : Value → String
  | .str s => s
  | v => pyRepr v

/-! ### Framework embedding (`backend/core/framework.py`) -/

/-- A capability handler: a deterministic stateful callable receiving its own
past invocation count and the call's positional and keyword arguments, and
either returning a value or raising (modelled by `Except`). -/
def Handler : Type := Nat → List Value → List (String × Value) → Except String Value

/-- Middleware rewrites `(args, kwargs)` given the capability name
(`Framework._apply_middleware`; modelled as non-raising). -/
def Middleware : Type :=
  String → List Value → List (String × Value) → List Value × List (String × Value)

/-- A plugin as seen by `framework.Framework`: its id, its capability map
(name to handler, insertion-ordered), its declared dependency list, the
boolean returned by `initialize()`, and whether `cleanup()` raises.
Hooks, config and per-plugin state are omitted: the modelled flows never
read them (hooks are assumed non-reentrant, see the header). -/
structure Plugin where
  plugin_id : String
  capabilities : List (String × Handler)
  dependencies : List String
  initOk : Bool
  cleanupRaises : Bool

/-- The mutable state of `framework.Framework`.  The `invocations` map is the
per-(plugin_id, capability) handler-invocation counter that feeds each
handler its own state; `metrics_plugin_calls` models the
`plugin_calls_{pid}` metric entries read by `_select_best_plugin` (nothing
in `framework.py` ever writes them). -/
structure Framework where
  plugins : List (String × Plugin)
  global_capabilities : List (String × List String)
  capability_cache : List (String × Value)
  middleware_stack : List Middleware
  validators : List (Plugin → Bool)
  plugin_dependencies : List (String × List String)
  metrics_calls : Nat
  metrics_errors : Nat
  metrics_cache_hits : Nat
  metrics_plugins_loaded : Nat
  metrics_plugin_calls : List (String × Nat)
  invocations : List ((String × String) × Nat)

/-- Rendering of a Python tuple of values, `str(args)`:
`"()"`, `"(x,)"`, `"(a, b)"`. -/
def pyStrTuple (args : List Value) : String :=
  match args with
  | [] => "()"
  | [v] => "(" ++ pyRepr v ++ ",)"
  | l => "(" ++ pyReprJoin l ++ ")"

/-- Rendering of `str(sorted(kwargs.items()))`: a list of 2-tuples. -/
def pyStrKwItems (kw : List (String × Value)) : String :=
  "[" ++ pyStrKwItemsJoin kw ++ "]"
where
  pyStrKwItemsJoin : List (String × Value) → String
    | [] => ""
    | [(k, v)] => "('" ++ k ++ "', " ++ pyRepr v ++ ")"
    | (k, v) :: rest => "('" ++ k ++ "', " ++ pyRepr v ++ "), " ++ pyStrKwItemsJoin rest

/-- Stable insertion sort of kwargs items by key, modelling Python's
`sorted(kwargs.items())` (kwargs keys are unique, so comparing keys
suffices). -/
def sortKwargs (kw : List (String × Value)) : List (String × Value) :=
  match kw with
  | [] => []
  | p :: rest => insertSorted p (sortKwargs rest)
where
  insertSorted (p : String × Value) : List (String × Value) → List (String × Value)
    | [] => [p]
    | q :: rest => if p.1 ≤ q.1 then p :: q :: rest else q :: insertSorted p rest

/-- Cache key of `Framework._generate_cache_key`: the source builds
`f"{capability}:{plugin_id}:{str(args)}:{str(sorted(kwargs.items()))}"`
and md5-hashes it; we model the digest by the pre-image string itself
(faithful up to md5 collisions). -/
def generateCacheKey (capability : String) (args : List Value)
    (kwargs : List (String × Value)) (pid? : Option String) : String :=
  capability ++ ":" ++ (match pid? with | some p => p | Option.none => "None")
    ++ ":" ++ pyStrTuple args ++ ":" ++ pyStrKwItems (sortKwargs kwargs)

/-- Test used by `Framework._should_cache`: is the result a dict or a list? -/
def isDictOrList : Value → Bool
  | .dict _ => true
  | .list _ => true
  | _ => false

/-- Embedding of `Framework._should_cache`: refuse only dict/list results
whose `str` form is longer than 10000 characters; otherwise the
`capability in [...] or True` expression is always true. -/
def shouldCache (capability : String) (result : Value) : Bool :=
  if isDictOrList result && (pyStr result).length > 10000 then false
  else ["get_", "fetch_", "load_", "read_"].contains capability || true

/-- Embedding of `Framework._cleanup_cache`: if more than 1000 entries,
drop the 100 oldest-inserted ones. -/
def cleanupCache (cache : List (String × Value)) : List (String × Value) :=
  if cache.length > 1000 then cache.drop 100 else cache

/-- Embedding of `Framework._select_best_plugin`: minimum of the usage
counters over the provider list, first minimal entry winning ties, exactly
as Python's `min` over dict items.  The list must be nonempty. -/
def selectBestPlugin (fw : Framework) (first : String) (rest : List String) : String :=
  (go rest (first, (PyDict.lookup fw.metrics_plugin_calls first).getD 0)).1
where
  go : List String → String × Nat → String × Nat
    | [], best => best
    | pid :: more, best =>
      let n := (PyDict.lookup fw.metrics_plugin_calls pid).getD 0
      go more (if n < best.2 then (pid, n) else best)

/-- Sequential application of the middleware chain to `(args, kwargs)`
(`call_capability` lines 240-241). -/
def applyMiddlewareChain (chain : List Middleware) (name : String)
    (args : List Value) (kwargs : List (String × Value)) :
    List Value × List (String × Value) :=
  chain.foldl (fun acc m => m name acc.1 acc.2) (args, kwargs)

/-- Error exit of `call_capability`: the `except` block increments the error
metric, routes the error through handlers/events (state-neutral in this
model) and re-raises. -/
def raiseCapabilityError (fw : Framework) (e : String) :
    Except String Value × Framework :=
  (.error e, { fw with metrics_errors := fw.metrics_errors + 1 })

/-- Embedding of `Framework.call_capability`.  Returns the result (or the
raised exception) together with the successor framework state. -/
def callCapability (fw : Framework) (name : String) (args : List Value)
    (pid? : Option String) (use_cache : Bool) (kwargs : List (String × Value)) :
    Except String Value × Framework :=
  let fw := { fw with metrics_calls := fw.metrics_calls + 1 }
  let hit : Option Value :=
    if use_cache then
      PyDict.lookup fw.capability_cache (generateCacheKey name args kwargs pid?)
    else Option.none
  match hit with
  | some v => (.ok v, { fw with metrics_cache_hits := fw.metrics_cache_hits + 1 })
  | Option.none =>
    match PyDict.lookup fw.global_capabilities name with
    | Option.none =>
      raiseCapabilityError fw ("Capability '" ++ name ++ "' not available")
    | some available =>
      let target? : Except String String :=
        match pid? with
        | some pid =>
          if pid ∈ available then .ok pid
          else .error ("Plugin " ++ pid ++ " doesn't provide capability '" ++ name ++ "'")
        | Option.none =>
          match available with
          | [] => .error "min() arg is an empty sequence"
          | a :: rest => .ok (selectBestPlugin fw a rest)
      match target? with
      | .error e => raiseCapabilityError fw e
      | .ok target =>
        match PyDict.lookup fw.plugins target with
        | Option.none => raiseCapabilityError fw ("KeyError: " ++ target)
        | some plugin =>
          let rewritten := applyMiddlewareChain fw.middleware_stack name args kwargs
          match PyDict.lookup plugin.capabilities name with
          | Option.none =>
            raiseCapabilityError fw
              ("Capability '" ++ name ++ "' not found in plugin " ++ target)
          | some handler =>
            let count := (PyDict.lookup fw.invocations (target, name)).getD 0
            let fw := { fw with
              invocations := PyDict.insert fw.invocations (target, name) (count + 1) }
            match handler count rewritten.1 rewritten.2 with
            | .error e => raiseCapabilityError fw e
            | .ok result =>
              let fw :=
                if use_cache && shouldCache name result then
                  let cache := PyDict.insert fw.capability_cache
                    (generateCacheKey name rewritten.1 rewritten.2 pid?) result
                  let cache := if cache.length > 1000 then cleanupCache cache else cache
                  { fw with capability_cache := cache }
                else fw
              (.ok result, fw)

/-- One entry of the `call_multiple` result list: the source builds
`{"plugin_id": ..., "result"/"error": ..., "success": ...}` dicts. -/
structure CallEntry where
  plugin_id : String
  result : Option Value
  error : Option String
  success : Bool

/-- Embedding of `Framework.call_multiple`: one `call_capability` per current
provider (with that provider forced and `use_cache` left at its default
`True`), each exception captured into its entry.  The source iterates the
live provider list, which `call_capability` never mutates, so folding over
a snapshot is equivalent. -/
def callMultiple (fw : Framework) (name : String) (args : List Value)
    (kwargs : List (String × Value)) : List CallEntry × Framework :=
  match PyDict.lookup fw.global_capabilities name with
  | Option.none => ([], fw)
  | some providers =>
    providers.foldl
      (fun acc pid =>
        match callCapability acc.2 name args (some pid) true kwargs with
        | (.ok r, fw') => (acc.1 ++ [⟨pid, some r, Option.none, true⟩], fw')
        | (.error e, fw') => (acc.1 ++ [⟨pid, Option.none, some e, false⟩], fw'))
      (([] : List CallEntry), fw)

/-- Embedding of `Framework.register_plugin`: raises `ValueError` when the id
is already registered (before any mutation), else adds the plugin and
appends its id to each capability's provider list. -/
def registerPlugin (fw : Framework) (p : Plugin) : Except String Framework :=
  if PyDict.hasKey fw.plugins p.plugin_id then
    .error ("Plugin " ++ p.plugin_id ++ " already registered")
  else
    let fw := { fw with plugins := PyDict.insert fw.plugins p.plugin_id p }
    .ok { fw with
      global_capabilities :=
        p.capabilities.foldl
          (fun g c =>
            PyDict.insert g c.1 ((PyDict.lookup g c.1).getD [] ++ [p.plugin_id]))
          fw.global_capabilities }

/-- Embedding of `Framework._validate_plugin`: id and capability map must be
non-empty (Python truthiness) and every registered validator must accept
(validators are modelled as non-raising; a raising validator also yields
`False` in the source). -/
def validatePlugin (fw : Framework) (p : Plugin) : Bool :=
  !(p.plugin_id == "" || p.capabilities.isEmpty) && fw.validators.all (fun v => v p)

/-- Embedding of `Framework._resolve_dependencies`: with declared
dependencies, they are recorded *before* the existence check, so the
record persists even when resolution fails. -/
def resolveDependencies (fw : Framework) (p : Plugin) : Bool × Framework :=
  if p.dependencies.isEmpty then (true, fw)
  else
    let fw := { fw with
      plugin_dependencies :=
        PyDict.insert fw.plugin_dependencies p.plugin_id p.dependencies }
    (p.dependencies.all (fun d => PyDict.hasKey fw.plugins d), fw)

/-- One iteration of `unload_plugin`'s capability-index cleanup loop: drop
`plugin_id` from the capability's provider list (`list.remove` removes the
first occurrence, guarded by an `in` check that `List.erase` reproduces)
and delete the entry when the list becomes empty. -/
def unregisterCapability (pid : String) (g : List (String × List String))
    (c : String × Handler) : List (String × List String) :=
  match PyDict.lookup g c.1 with
  | Option.none => g
  | some ids =>
    let ids := ids.erase pid
    if ids.isEmpty then PyDict.erase g c.1 else PyDict.insert g c.1 ids

/-- Embedding of `Framework.unload_plugin`.  Mirrors the source's control
flow: the `try` block starts with `cleanup()`, so a raising cleanup jumps
to the `except` block *before* any bookkeeping is removed, and the call
returns `False` with the registration intact. -/
def unloadPlugin (fw : Framework) (pid : String) : Bool × Framework :=
  match PyDict.lookup fw.plugins pid with
  | Option.none => (false, fw)
  | some plugin =>
    if plugin.cleanupRaises then (false, fw)
    else
      (true,
        { fw with
          global_capabilities :=
            plugin.capabilities.foldl (unregisterCapability pid)
              fw.global_capabilities,
          plugins := PyDict.erase fw.plugins pid })

/-- Embedding of `Framework.load_plugin`: validation, dependency resolution,
registration (a duplicate-id `ValueError` is caught by the surrounding
`except`, which returns `False` with the state as of the raise),
`initialize()`, and on a false `initialize()` a rollback via
`unload_plugin`. -/
def loadPlugin (fw : Framework) (p : Plugin) : Bool × Framework :=
  if !validatePlugin fw p then (false, fw)
  else
    let resolved := resolveDependencies fw p
    if !resolved.1 then (false, resolved.2)
    else
      match registerPlugin resolved.2 p with
      | .error _ => (false, resolved.2)
      | .ok fw' =>
        if p.initOk then
          (true, { fw' with metrics_plugins_loaded := fw'.metrics_plugins_loaded + 1 })
        else
          (false, (unloadPlugin fw' p.plugin_id).2)

/-! ### Pipeline embedding (`backend/core/pipeline_engine.py`) -/

/-- Embedding of `PipelineNode`: id, bound plugin, per-node config, ordered
connection list. -/
structure PipelineNode where
  node_id : String
  plugin_id : String
  config : List (String × Value)
  connections : List String

/-- Embedding of `PipelineNode.add_connection`: append unless already
present. -/
def PipelineNode.addConnection (n : PipelineNode) (target : String) : PipelineNode :=
  if target ∈ n.connections then n
  else { n with connections := n.connections ++ [target] }

/-- Embedding of `Pipeline`: an insertion-ordered node map (name, timestamps
and status metadata are irrelevant to the claims and omitted). -/
structure Pipeline where
  pipeline_id : String
  nodes : List (String × PipelineNode)

/-- Embedding of `Pipeline.add_node` (dict assignment: an existing node id is
overwritten). -/
def Pipeline.addNode (p : Pipeline) (node_id plugin_id : String)
    (config : List (String × Value)) : Pipeline :=
  { p with nodes := PyDict.insert p.nodes node_id ⟨node_id, plugin_id, config, []⟩ }

/-- Embedding of `Pipeline.connect_nodes`: silently does nothing when the
source node id is unknown. -/
def Pipeline.connectNodes (p : Pipeline) (source target : String) : Pipeline :=
  match PyDict.lookup p.nodes source with
  | Option.none => p
  | some n => { p with nodes := PyDict.insert p.nodes source (n.addConnection target) }

/-- Helper for the DFS termination argument: marking a fresh key as visited
strictly shrinks the set of unvisited keys. -/
theorem length_filter_not_mem_append_lt (keys result : List String) (id : String)
    (hid : id ∈ keys) (hnot : id ∉ result) :
    (keys.filter fun k => decide (k ∉ result ++ [id])).length <
      (keys.filter fun k => decide (k ∉ result)).length := by
  induction keys with
  | nil => cases hid
  | cons a tl ih =>
    by_cases ha : a = id
    · subst ha
      have h₁ : (decide (a ∉ result ++ [a])) = false := by simp
      have h₂ : (decide (a ∉ result)) = true := by simpa using hnot
      simp only [List.filter_cons, h₁, h₂, Bool.false_eq_true, if_false, if_true,
        List.length_cons]
      have hmono : (tl.filter fun k => decide (k ∉ result ++ [a])).length ≤
          (tl.filter fun k => decide (k ∉ result)).length := by
        apply List.Sublist.length_le
        apply List.monotone_filter_right
        intro b hb
        simp only [decide_eq_true_eq, List.mem_append, List.mem_singleton] at *
        exact fun hbr => hb (Or.inl hbr)
      omega
    · have hid' : id ∈ tl := by
        rcases List.mem_cons.mp hid with h | h
        · exact absurd h.symm ha
        · exact h
      have heq : (decide (a ∉ result ++ [id])) = (decide (a ∉ result)) := by
        by_cases hr : a ∈ result <;> simp [hr, ha]
      simp only [List.filter_cons, heq]
      cases hd : (decide (a ∉ result)) with
      | false => simpa using ih hid'
      | true => simpa using Nat.succ_lt_succ (ih hid')

theorem PyDict.mem_keys_of_lookup {α β : Type} [DecidableEq α]
    (l : List (α × β)) (k : α) (v : β) (h : PyDict.lookup l k = some v) :
    k ∈ l.map Prod.fst := by
  induction l with
  | nil => simp [PyDict.lookup] at h
  | cons hd tl ih =>
    obtain ⟨k', v'⟩ := hd
    by_cases hk : k' = k
    · simp [hk]
    · simp only [PyDict.lookup, if_neg hk] at h
      simpa using Or.inr (ih h)

theorem PyDict.mem_keys_of_hasKey {α β : Type} [DecidableEq α]
    (l : List (α × β)) (k : α) (h : PyDict.hasKey l k = true) :
    k ∈ l.map Prod.fst := by
  simp only [PyDict.hasKey, Option.isSome_iff_exists] at h
  obtain ⟨v, hv⟩ := h
  exact PyDict.mem_keys_of_lookup l k v hv

/-- Iterative form of the recursive `dfs` inside
`Pipeline.get_execution_order`.  The source keeps a `visited` set и a
`result` list that always receive exactly the same elements, so a single
`result` list serves as both.  Popping `id`: a missing or already-visited
node is skipped; otherwise `id` is appended and its connections are pushed
in front of the remaining work, which reproduces the recursive visit order
(each connection is explored fully before its right siblings). -/
def dfsLoop (nodes : List (String × PipelineNode)) :
    List String → List String → List String
  | [], result => result
  | id :: stack, result =>
    if id ∈ result ∨ PyDict.hasKey nodes id = false then dfsLoop nodes stack result
    else
      let conns :=
        match PyDict.lookup nodes id with
        | some n => n.connections
        | Option.none => []
      dfsLoop nodes (conns ++ stack) (result ++ [id])
termination_by stack result =>
  (((nodes.map Prod.fst).filter fun k => decide (k ∉ result)).length, stack.length)
decreasing_by
  all_goals
    first
    | (apply Prod.Lex.right
       simp only [List.length_cons]
       omega)
    | (apply Prod.Lex.left
       rename_i hcond
       rw [not_or, Bool.not_eq_false] at hcond
       exact length_filter_not_mem_append_lt _ _ _
         (PyDict.mem_keys_of_hasKey _ _ hcond.2) hcond.1)

/-- Embedding of `Pipeline.get_execution_order`: the outer `for node_id in
self.nodes` loop with its visited-check is the worklist initialised with
every key in insertion order. -/
def Pipeline.getExecutionOrder (p : Pipeline) : List String :=
  dfsLoop p.nodes (p.nodes.map Prod.fst) []

/-- A plugin as seen by the pipeline engine's `_execute_node` duck-typing:
it either has an `execute(input_data, node_config, previous_outputs)`
method, or a `process(input_data)` method, or neither (in which case the
node passes its input through unchanged). -/
inductive NodePlugin where
  | withExecute
      (f : List (String × Value) → List (String × Value) → List (String × Value) →
        Except String Value)
  | withProcess (f : List (String × Value) → Except String Value)
  | neither

/-- Embedding of `PipelineEngine._execute_node`. -/
def executeNode (plugin : NodePlugin) (node : PipelineNode)
    (input : List (String × Value)) (prev : List (String × Value)) :
    Except String Value :=
  match plugin with
  | .withExecute f => f input node.config prev
  | .withProcess f => f input
  | .neither => .ok (.dict input)

/-- Python `current_data.update(node_output)`: assign every binding of the
update dict in order. -/
def dictUpdate (d upd : List (String × Value)) : List (String × Value) :=
  upd.foldl (fun acc kv => PyDict.insert acc kv.1 kv.2) d

/-- The node loop of `PipelineEngine._execute_pipeline_internal`.  The first
component of the result observes the local `node_outputs` dict at the
moment the loop ends (the source discards it when a node raises; exposing
it lets the theorems speak about which nodes had produced output).  A
failing node aborts immediately with `RuntimeError(f"Node ... failed")`;
a missing plugin aborts with `RuntimeError(f"Plugin not found: ...")`. -/
def execLoop (getPlugin : String → Option NodePlugin)
    (nodes : List (String × PipelineNode)) :
    List String → List (String × Value) → List (String × Value) →
    List (String × Value) × Except String (List (String × Value))
  | [], data, outs => (outs, .ok data)
  | id :: rest, data, outs =>
    match PyDict.lookup nodes id with
    | Option.none => (outs, .error ("KeyError: " ++ id))
    | some node =>
      match getPlugin node.plugin_id with
      | Option.none => (outs, .error ("Plugin not found: " ++ node.plugin_id))
      | some plugin =>
        match executeNode plugin node data outs with
        | .error e => (outs, .error ("Node " ++ id ++ " failed: " ++ e))
        | .ok out =>
          let outs' := PyDict.insert outs id out
          let data' := match out with
            | .dict d => dictUpdate data d
            | _ => data
          execLoop getPlugin nodes rest data' outs'

/-- Successful result of `_execute_pipeline_internal` (status is always
`"completed"`; pipeline/execution ids omitted). -/
structure PipelineResult where
  node_outputs : List (String × Value)
  final_output : List (String × Value)

/-- Embedding of `PipelineEngine._execute_pipeline_internal`: run the node
loop over the computed execution order, starting from a copy of the input
and an empty `node_outputs`.  The first component again observes the local
`node_outputs`. -/
def executePipelineInternal (getPlugin : String → Option NodePlugin)
    (p : Pipeline) (input : List (String × Value)) :
    List (String × Value) × Except String PipelineResult :=
  match execLoop getPlugin p.nodes p.getExecutionOrder input [] with
  | (outs, .ok data) => (outs, .ok ⟨outs, data⟩)
  | (outs, .error e) => (outs, .error e)

/-- Embedding of the `PipelineEngine` state: its pipeline map, plus the
plugin framework reduced to its `get_plugin` lookup (the only part the
engine reads).  Active-execution bookkeeping carries no node outputs in
the source and is omitted. -/
structure PipelineEngine where
  pipelines : List (String × Pipeline)
  getPlugin : String → Option NodePlugin

/-- Embedding of `PipelineEngine.add_pipeline_node`. -/
def addPipelineNode (eng : PipelineEngine) (pipeline_id node_id plugin_id : String)
    (config : List (String × Value)) : Bool × PipelineEngine :=
  match PyDict.lookup eng.pipelines pipeline_id with
  | Option.none => (false, eng)
  | some p =>
    (true,
      { eng with
        pipelines :=
          PyDict.insert eng.pipelines pipeline_id
            (p.addNode node_id plugin_id config) })

/-- Embedding of `PipelineEngine.connect_pipeline_nodes`: `False` only when
the pipeline id is unknown; otherwise delegates to
`Pipeline.connect_nodes` and returns `True` unconditionally. -/
def connectPipelineNodes (eng : PipelineEngine)
    (pipeline_id source_node_id target_node_id : String) : Bool × PipelineEngine :=
  match PyDict.lookup eng.pipelines pipeline_id with
  | Option.none => (false, eng)
  | some p =>
    (true,
      { eng with
        pipelines :=
          PyDict.insert eng.pipelines pipeline_id
            (p.connectNodes source_node_id target_node_id) })

/-- Embedding of `PipelineEngine.execute_pipeline` (minus the
active-execution status bookkeeping, which holds no node outputs):
unknown pipeline raises; otherwise the internal loop's verdict is
propagated. -/
def executePipeline (eng : PipelineEngine) (pipeline_id : String)
    (input : List (String × Value)) : Except String PipelineResult :=
  match PyDict.lookup eng.pipelines pipeline_id with
  | Option.none => .error ("Pipeline not found: " ++ pipeline_id)
  | some p => (executePipelineInternal eng.getPlugin p input).2

/-! ### Shared helper lemmas -/

theorem PyDict.hasKey_of_lookup {α β : Type} [DecidableEq α]
    (l : List (α × β)) (k : α) (v : β) (h : PyDict.lookup l k = some v) :
    PyDict.hasKey l k = true := by
  simp [PyDict.hasKey, h]

theorem PyDict.insert_self {α β : Type} [DecidableEq α]
    (l : List (α × β)) (k : α) (v : β) (h : PyDict.lookup l k = some v) :
    PyDict.insert l k v = l := by
  induction l with
  | nil => simp [PyDict.lookup] at h
  | cons hd tl ih =>
    obtain ⟨k', v'⟩ := hd
    by_cases hk : k' = k
    · subst hk
      simp only [PyDict.lookup, if_true, eq_self_iff_true, Option.some.injEq] at h
      subst h
      simp [PyDict.insert]
    · simp only [PyDict.lookup, if_neg hk] at h
      simp [PyDict.insert, hk, ih h]

/-! ### Claim C1 -/

/-- Concrete framework for the C1 counterexample: one registered plugin
whose `cleanup()` raises. -/
def fwC1 : Framework :=
  { plugins :=
      [("p", ⟨"p", [("cap", fun _ _ _ => .ok Value.none)], [], true, true⟩)],
    global_capabilities := [("cap", ["p"])],
    capability_cache := [], middleware_stack := [], validators := [],
    plugin_dependencies := [], metrics_calls := 0, metrics_errors := 0,
    metrics_cache_hits := 0, metrics_plugins_loaded := 0,
    metrics_plugin_calls := [], invocations := [] }

/-- C1 counterexample: for the registered plugin `"p"` whose `cleanup()`
raises, `unload_plugin("p")` does **not** succeed in removing the
bookkeeping — it returns `False` and leaves the framework state (instance
map and Capability Registry included) completely unchanged, contradicting
the claim that the call returns true with the registration removed. -/
theorem C1_cleanup_failure_counterexample :
    unloadPlugin fwC1 "p" = (false, fwC1) ∧
      PyDict.lookup fwC1.plugins "p" ≠ Option.none := by
  constructor
  · rfl
  · simp [fwC1, PyDict.lookup]

/-- C1 (amended): for every registered `plugin_id` whose `cleanup()` raises,
the exception is caught (not propagated) but `unload_plugin` returns
`False` and removes nothing: the plugin remains in the instance map and
the Capability Registry, and no `plugin_unloaded` event is emitted — a
zombie registration remains.  In the source, the `try` block starts with
`await plugin.cleanup()`, so the raise jumps to the `except` block before
any bookkeeping line runs. -/
theorem C1_cleanup_failure_keeps_registration (fw : Framework) (pid : String)
    (p : Plugin) (hreg : PyDict.lookup fw.plugins pid = some p)
    (hraise : p.cleanupRaises = true) :
    unloadPlugin fw pid = (false, fw) := by
  simp [unloadPlugin, hreg, hraise]

/-- Closed instantiation of `C1_cleanup_failure_keeps_registration` at the
concrete framework `fwC1`. -/
theorem C1_cleanup_failure_keeps_registration_witness :
    PyDict.lookup fwC1.plugins "p" =
        some ⟨"p", [("cap", fun _ _ _ => .ok Value.none)], [], true, true⟩ ∧
      unloadPlugin fwC1 "p" = (false, fwC1) :=
  ⟨rfl, C1_cleanup_failure_keeps_registration fwC1 "p" _ rfl rfl⟩

/-! ### Claim C3 -/

/-- Concrete engine for the C3 counterexample: one existing pipeline `"p"`
with a single node `"A"`; `"x"` is not a node of it. -/
def engC3 : PipelineEngine :=
  { pipelines := [("p", ⟨"p", [("A", ⟨"A", "pa", [], []⟩)]⟩)],
    getPlugin := fun _ => Option.none }

/-- C3 counterexample: for the existing pipeline `"p"` and the unknown
source node `"x"`, `connect` returns `True` (with the engine unchanged),
not `False` as the claim states. -/
theorem C3_connect_unknown_source_counterexample :
    PyDict.lookup engC3.pipelines "p" ≠ Option.none ∧
      (match PyDict.lookup engC3.pipelines "p" with
        | some p => PyDict.lookup p.nodes "x" = Option.none
        | Option.none => False) ∧
      connectPipelineNodes engC3 "p" "x" "y" = (true, engC3) := by
  refine ⟨by simp [engC3, PyDict.lookup], by simp [engC3, PyDict.lookup], ?_⟩
  rfl

/-- C3 (amended): for every existing pipeline and every `source_node_id`
that is not a node of it, `connect` fails *silently but returns `True`*:
the connection is not added and the engine state is unchanged, yet the
boolean result is `true` — `False` is returned only for an unknown
`pipeline_id`.  (`connect_pipeline_nodes` returns `True` unconditionally
once the pipeline exists; `Pipeline.connect_nodes` is a silent no-op for
an unknown source.) -/
theorem C3_connect_unknown_source_returns_true (eng : PipelineEngine)
    (pipeline_id source target : String) (p : Pipeline)
    (hp : PyDict.lookup eng.pipelines pipeline_id = some p)
    (hs : PyDict.lookup p.nodes source = Option.none) :
    connectPipelineNodes eng pipeline_id source target = (true, eng) := by
  have hnoop : p.connectNodes source target = p := by
    simp [Pipeline.connectNodes, hs]
  simp only [connectPipelineNodes, hp, hnoop]
  rw [PyDict.insert_self _ _ _ hp]

/-- Closed instantiation of `C3_connect_unknown_source_returns_true` at the
concrete engine `engC3`. -/
theorem C3_connect_unknown_source_returns_true_witness :
    PyDict.lookup engC3.pipelines "p" = some ⟨"p", [("A", ⟨"A", "pa", [], []⟩)]⟩ ∧
      connectPipelineNodes engC3 "p" "x" "y" = (true, engC3) :=
  ⟨rfl, C3_connect_unknown_source_returns_true engC3 "p" "x" "y" _ rfl rfl⟩

/-! ### Claim C10 -/

/-- C10: loading a plugin whose id is already registered (while it passes
validation and dependency resolution) returns `False`, and the plugin map
and capability index are unchanged: `register_plugin` raises the
duplicate-id `ValueError` before mutating anything, and `load_plugin`
catches it — the previously registered plugin and its capability entries
survive untouched.  (Only the `plugin_dependencies` record may change,
which the claim does not cover.) -/
theorem C10_duplicate_load_fails_without_mutation (fw : Framework) (p : Plugin)
    (q : Plugin) (hdup : PyDict.lookup fw.plugins p.plugin_id = some q)
    (hvalid : validatePlugin fw p = true)
    (hdeps : ∀ d ∈ p.dependencies, PyDict.hasKey fw.plugins d = true) :
    (loadPlugin fw p).1 = false ∧
      (loadPlugin fw p).2.plugins = fw.plugins ∧
      (loadPlugin fw p).2.global_capabilities = fw.global_capabilities := by
  have hkey : PyDict.hasKey fw.plugins p.plugin_id = true :=
    PyDict.hasKey_of_lookup _ _ _ hdup
  simp only [loadPlugin, hvalid, Bool.not_true, Bool.false_eq_true, if_false,
    resolveDependencies]
  by_cases hemp : p.dependencies.isEmpty
  · simp [hemp, registerPlugin, hkey]
  · simp only [hemp, Bool.false_eq_true, if_false]
    have hall : p.dependencies.all (fun d => PyDict.hasKey fw.plugins d) = true := by
      simp only [List.all_eq_true]
      exact fun d hd => hdeps d hd
    simp [hall, registerPlugin, hkey]

/-- Concrete framework for the C10 witness: `"math"` is already loaded and a
second plugin with the same id (different capabilities) is loaded on top. -/
def fwC10 : Framework :=
  { plugins :=
      [("math", ⟨"math", [("add", fun _ _ _ => .ok Value.none)], [], true, false⟩)],
    global_capabilities := [("add", ["math"])],
    capability_cache := [], middleware_stack := [], validators := [],
    plugin_dependencies := [], metrics_calls := 0, metrics_errors := 0,
    metrics_cache_hits := 0, metrics_plugins_loaded := 0,
    metrics_plugin_calls := [], invocations := [] }

/-- Duplicate-id plugin used by the C10 witness. -/
def dupPlugin : Plugin := ⟨"math", [("mul", fun _ _ _ => .ok Value.none)], [], true, false⟩

/-- Closed instantiation of `C10_duplicate_load_fails_without_mutation` at
the concrete framework `fwC10`. -/
theorem C10_duplicate_load_fails_without_mutation_witness :
    (loadPlugin fwC10 dupPlugin).1 = false ∧
      (loadPlugin fwC10 dupPlugin).2.plugins = fwC10.plugins ∧
      (loadPlugin fwC10 dupPlugin).2.global_capabilities = fwC10.global_capabilities :=
  C10_duplicate_load_fails_without_mutation fwC10 dupPlugin _ rfl rfl
    (by intro d hd; simp [dupPlugin] at hd)

/-! ### DFS traversal lemmas (shared by C2 and C7) -/

theorem PyDict.hasKey_of_mem_keys {α β : Type} [DecidableEq α]
    (l : List (α × β)) (k : α) (h : k ∈ l.map Prod.fst) :
    PyDict.hasKey l k = true := by
  induction l with
  | nil => simp at h
  | cons hd tl ih =>
    obtain ⟨k', v'⟩ := hd
    by_cases hk : k' = k
    · simp [PyDict.hasKey, PyDict.lookup, hk]
    · simp only [List.map_cons, List.mem_cons] at h
      rcases h with h | h
      · exact absurd h.symm hk
      · simpa [PyDict.hasKey, PyDict.lookup, hk] using ih h

/-- Everything the DFS emits is either already in the accumulator or a key
of the node map (dangling connection targets are skipped, never
emitted). -/
theorem dfsLoop_sound (nodes : List (String × PipelineNode)) :
    ∀ stack res x, x ∈ dfsLoop nodes stack res →
      x ∈ res ∨ x ∈ nodes.map Prod.fst := by
  intro stack res x h
  induction stack, res using dfsLoop.induct nodes with
  | case1 res =>
    simp only [dfsLoop] at h
    exact Or.inl h
  | case2 id stack res hcond ih =>
    simp only [dfsLoop, if_pos hcond] at h
    exact ih h
  | case3 id stack res hcond conns ih =>
    simp only [dfsLoop, if_neg hcond] at h
    rw [not_or, Bool.not_eq_false] at hcond
    rcases ih h with hres | hkeys
    · rcases List.mem_append.mp hres with h' | h'
      · exact Or.inl h'
      · simp only [List.mem_singleton] at h'
        subst h'
        exact Or.inr (PyDict.mem_keys_of_hasKey _ _ hcond.2)
    · exact Or.inr hkeys

/-- The DFS never drops anything already in its accumulator. -/
theorem dfsLoop_mono (nodes : List (String × PipelineNode)) (x : String) :
    ∀ stack res, x ∈ res → x ∈ dfsLoop nodes stack res := by
  intro stack res
  induction stack, res using dfsLoop.induct nodes with
  | case1 res =>
    intro h
    simpa [dfsLoop] using h
  | case2 id stack res hcond ih =>
    intro h
    simp only [dfsLoop, if_pos hcond]
    exact ih h
  | case3 id stack res hcond conns ih =>
    intro h
    simp only [dfsLoop, if_neg hcond]
    exact ih (List.mem_append.mpr (Or.inl h))

/-- Every existing node id on the worklist ends up in the DFS output. -/
theorem dfsLoop_complete (nodes : List (String × PipelineNode)) (x : String)
    (hk : PyDict.hasKey nodes x = true) :
    ∀ stack res, x ∈ stack → x ∈ dfsLoop nodes stack res := by
  intro stack res
  induction stack, res using dfsLoop.induct nodes with
  | case1 res =>
    intro h
    cases h
  | case2 id stack res hcond ih =>
    intro h
    simp only [dfsLoop, if_pos hcond]
    rcases List.mem_cons.mp h with h' | h'
    · subst h'
      rcases hcond with hv | hnk
      · exact dfsLoop_mono nodes x stack res hv
      · rw [hk] at hnk
        cases hnk
    · exact ih h'
  | case3 id stack res hcond conns ih =>
    intro h
    simp only [dfsLoop, if_neg hcond]
    rcases List.mem_cons.mp h with h' | h'
    · subst h'
      exact dfsLoop_mono nodes x _ _ (by simp)
    · exact ih (List.mem_append.mpr (Or.inr h'))

/-- The DFS output has no duplicates (each node is visited at most once). -/
theorem dfsLoop_nodup (nodes : List (String × PipelineNode)) :
    ∀ stack res, res.Nodup → (dfsLoop nodes stack res).Nodup := by
  intro stack res
  induction stack, res using dfsLoop.induct nodes with
  | case1 res =>
    intro h
    simpa [dfsLoop] using h
  | case2 id stack res hcond ih =>
    intro h
    simp only [dfsLoop, if_pos hcond]
    exact ih h
  | case3 id stack res hcond conns ih =>
    intro h
    simp only [dfsLoop, if_neg hcond]
    rw [not_or] at hcond
    exact ih (by simp [List.nodup_append, h, hcond.1])

/-- Unconditional: the execution order never repeats a node. -/
theorem execOrder_nodup (p : Pipeline) : p.getExecutionOrder.Nodup :=
  dfsLoop_nodup p.nodes _ [] List.nodup_nil

/-- Membership description of the execution order: exactly the existing
node ids appear. -/
theorem execOrder_mem_iff (p : Pipeline) (x : String) :
    x ∈ p.getExecutionOrder ↔ x ∈ p.nodes.map Prod.fst := by
  constructor
  · intro h
    rcases dfsLoop_sound p.nodes _ [] x h with h' | h'
    · cases h'
    · exact h'
  · intro h
    exact dfsLoop_complete p.nodes x (PyDict.hasKey_of_mem_keys _ _ h) _ [] h

/-! ### Claim C7 -/

/-- C7: for every pipeline — cyclic connection graphs included —
`get_execution_order` terminates (it is a total function of this model)
and returns a list in which every node of the pipeline appears exactly
once, unreachable nodes included, and no cycle error is raised (the
function has no error outcome): the output is a permutation of the node
keys. -/
theorem C7_execution_order_visits_each_node_once (p : Pipeline)
    (hnd : (p.nodes.map Prod.fst).Nodup) :
    p.getExecutionOrder.Perm (p.nodes.map Prod.fst) := by
  rw [List.perm_ext_iff_of_nodup (execOrder_nodup p) hnd]
  exact fun x => execOrder_mem_iff p x

/-- Concrete pipeline for the C7 witness: a two-node cycle `A ↔ B` plus an
unreachable isolated node `C`. -/
def pC7 : Pipeline :=
  ⟨"p", [("A", ⟨"A", "pa", [], ["B"]⟩), ("B", ⟨"B", "pb", [], ["A"]⟩),
         ("C", ⟨"C", "pc", [], []⟩)]⟩

/-- Closed instantiation of `C7_execution_order_visits_each_node_once` at a
cyclic pipeline with an unreachable node. -/
theorem C7_execution_order_visits_each_node_once_witness :
    (pC7.nodes.map Prod.fst).Nodup ∧
      pC7.getExecutionOrder.Perm (pC7.nodes.map Prod.fst) :=
  ⟨by decide, C7_execution_order_visits_each_node_once pC7 (by decide)⟩

/-! ### Claim C2 -/

/-- Concrete engine for the C2 counterexample: pipeline `"p"` has a single
node `"A"` whose connections contain the non-existent node id `"B"`; the
bound plugin exists (with no execute/process method, i.e. a pass-through
node). -/
def engC2 : PipelineEngine :=
  { pipelines := [("p", ⟨"p", [("A", ⟨"A", "pa", [], ["B"]⟩)]⟩)],
    getPlugin := fun _ => some .neither }

/-- C2 counterexample: executing a pipeline whose node `"A"` has the
dangling connection `"B"` (no such node exists) does **not** fail:
`execute_pipeline` completes successfully, silently ignoring the dangling
edge, contradicting the claim that such a pipeline fails at execution
time. -/
theorem C2_dangling_edge_counterexample :
    PyDict.lookup engC2.pipelines "p" =
        some ⟨"p", [("A", ⟨"A", "pa", [], ["B"]⟩)]⟩ ∧
      executePipeline engC2 "p" [] = .ok ⟨[("A", Value.dict [])], []⟩ := by
  constructor
  · rfl
  · simp [executePipeline, executePipelineInternal, execLoop, engC2,
      Pipeline.getExecutionOrder, dfsLoop, PyDict.lookup, PyDict.hasKey,
      PyDict.insert, executeNode, dictUpdate]

/-- C2 (amended): dangling connection targets do not fail at execution
time; they are silently dropped.  `get_execution_order`'s DFS skips any
referenced node id that is not in the pipeline, so execution only ever
visits existing nodes and a dangling edge never causes a failure. -/
theorem C2_dangling_references_silently_skipped (p : Pipeline) (x : String)
    (hx : x ∈ p.getExecutionOrder) : PyDict.hasKey p.nodes x = true :=
  PyDict.hasKey_of_mem_keys _ _ ((execOrder_mem_iff p x).mp hx)

/-- Closed instantiation of `C2_dangling_references_silently_skipped`: in
the dangling-edge pipeline of the counterexample, the only executed node
is the existing `"A"`. -/
theorem C2_dangling_references_silently_skipped_witness :
    "A" ∈ (Pipeline.mk "p" [("A", ⟨"A", "pa", [], ["B"]⟩)]).getExecutionOrder ∧
      PyDict.hasKey (Pipeline.mk "p" [("A", ⟨"A", "pa", [], ["B"]⟩)]).nodes "A" = true := by
  have hmem : "A" ∈ (Pipeline.mk "p" [("A", ⟨"A", "pa", [], ["B"]⟩)]).getExecutionOrder := by
    simp [Pipeline.getExecutionOrder, dfsLoop, PyDict.lookup, PyDict.hasKey]
  exact ⟨hmem, C2_dangling_references_silently_skipped _ "A" hmem⟩

/-! ### Claim C6 -/

theorem PyDict.lookup_eq_none_of_not_mem_keys {α β : Type} [DecidableEq α]
    (l : List (α × β)) (k : α) (h : k ∉ l.map Prod.fst) :
    PyDict.lookup l k = Option.none := by
  induction l with
  | nil => rfl
  | cons hd tl ih =>
    obtain ⟨k', v'⟩ := hd
    simp only [List.map_cons, List.mem_cons, not_or] at h
    have hk : ¬(k' = k) := fun he => h.1 he.symm
    simp only [PyDict.lookup, if_neg hk]
    exact ih h.2

theorem PyDict.keys_insert_fresh {α β : Type} [DecidableEq α]
    (l : List (α × β)) (k : α) (v : β) (h : PyDict.lookup l k = Option.none) :
    (PyDict.insert l k v).map Prod.fst = l.map Prod.fst ++ [k] := by
  induction l with
  | nil => rfl
  | cons hd tl ih =>
    obtain ⟨k', v'⟩ := hd
    by_cases hk : k' = k
    · simp [PyDict.lookup, hk] at h
    · simp only [PyDict.lookup, if_neg hk] at h
      simp [PyDict.insert, hk, ih h]

/-- When the node loop aborts with an error, the `node_outputs` it had
accumulated are exactly the outputs of a strict prefix of the pending
execution order: the failing node and everything after it are absent, and
nothing is retried. -/
theorem execLoop_error_outputs (gp : String → Option NodePlugin)
    (nodes : List (String × PipelineNode)) :
    ∀ (order : List String) (data outs : List (String × Value))
      (e : String) (outs' : List (String × Value)),
      order.Nodup → (∀ x ∈ order, x ∉ outs.map Prod.fst) →
      execLoop gp nodes order data outs = (outs', .error e) →
      ∃ k, k < order.length ∧
        outs'.map Prod.fst = outs.map Prod.fst ++ order.take k := by
  intro order
  induction order with
  | nil =>
    intro data outs e outs' _ _ h
    simp [execLoop] at h
  | cons id rest ih =>
    intro data outs e outs' hnd hfresh h
    simp only [execLoop] at h
    cases hlook : PyDict.lookup nodes id with
    | none =>
      simp only [hlook] at h
      injection h with h1 h2
      exact ⟨0, by simp, by simp [← h1]⟩
    | some node =>
      simp only [hlook] at h
      cases hgp : gp node.plugin_id with
      | none =>
        simp only [hgp] at h
        injection h with h1 h2
        exact ⟨0, by simp, by simp [← h1]⟩
      | some plugin =>
        simp only [hgp] at h
        cases hex : executeNode plugin node data outs with
        | error e' =>
          simp only [hex] at h
          injection h with h1 h2
          exact ⟨0, by simp, by simp [← h1]⟩
        | ok out =>
          simp only [hex] at h
          have hid : id ∉ outs.map Prod.fst := hfresh id (by simp)
          have hkeys : (PyDict.insert outs id out).map Prod.fst =
              outs.map Prod.fst ++ [id] :=
            PyDict.keys_insert_fresh outs id out
              (PyDict.lookup_eq_none_of_not_mem_keys outs id hid)
          have hfresh' : ∀ x ∈ rest, x ∉ (PyDict.insert outs id out).map Prod.fst := by
            intro x hx
            rw [hkeys]
            simp only [List.mem_append, List.mem_singleton, not_or]
            refine ⟨hfresh x (by simp [hx]), ?_⟩
            intro hxe
            subst hxe
            exact (List.nodup_cons.mp hnd).1 hx
          obtain ⟨k, hk, ho⟩ :=
            ih _ _ e outs' (List.nodup_cons.mp hnd).2 hfresh' h
          refine ⟨k + 1, by simpa using Nat.succ_lt_succ hk, ?_⟩
          rw [ho, hkeys]
          simp [List.take_succ_cons]

/-- C6: when a pipeline execution fails (in particular when some node's
bound plugin raises during node execution), `_execute_pipeline_internal`
reports the failure with no retry, and the `node_outputs` accumulated at
the moment of failure are exactly the outputs of the strict prefix of the
execution order before the failing node — every node at or after the
failure point (e.g. node C when B fails in order A, B, C) is absent, so
no partial-success result is ever returned. -/
theorem C6_node_failure_aborts_without_later_outputs
    (gp : String → Option NodePlugin) (p : Pipeline)
    (input : List (String × Value)) (e : String) (outs' : List (String × Value))
    (h : executePipelineInternal gp p input = (outs', .error e)) :
    ∃ k, k < p.getExecutionOrder.length ∧
      outs'.map Prod.fst = p.getExecutionOrder.take k := by
  have hord := execOrder_nodup p
  simp only [executePipelineInternal] at h
  cases hrun : execLoop gp p.nodes p.getExecutionOrder input [] with
  | mk o verdict =>
    rw [hrun] at h
    cases verdict with
    | ok data => simp at h
    | error e' =>
      injection h with h1 h2
      injection h2 with h3
      subst h1 h3
      simpa using
        execLoop_error_outputs gp p.nodes p.getExecutionOrder input [] e' o
          hord (by simp) hrun

/-- Pipeline for the C6 witness: `A → B → C` where node `B`'s plugin raises. -/
def pC6 : Pipeline :=
  ⟨"p", [("A", ⟨"A", "pa", [], ["B"]⟩), ("B", ⟨"B", "pb", [], ["C"]⟩),
         ("C", ⟨"C", "pc", [], []⟩)]⟩

/-- Plugin lookup for the C6 witness: `B`'s plugin raises `"boom"` from its
`process` method; the others are pass-through. -/
def gpC6 : String → Option NodePlugin := fun pid =>
  if pid = "pb" then some (.withProcess fun _ => .error "boom")
  else some .neither

/-- Closed instantiation of `C6_node_failure_aborts_without_later_outputs`:
with order `A, B, C` and `B` failing, execution aborts with
`Node B failed: boom` and the recorded outputs cover only `A` — neither
`B` nor `C` appears. -/
theorem C6_node_failure_aborts_without_later_outputs_witness :
    executePipelineInternal gpC6 pC6 [] =
        ([("A", Value.dict [])], .error "Node B failed: boom") ∧
      ∃ k, k < pC6.getExecutionOrder.length ∧
        [("A", Value.dict [])].map Prod.fst = pC6.getExecutionOrder.take k := by
  have hrun : executePipelineInternal gpC6 pC6 [] =
      ([("A", Value.dict [])], .error "Node B failed: boom") := by
    simp [executePipelineInternal, execLoop, pC6, gpC6,
      Pipeline.getExecutionOrder, dfsLoop, PyDict.lookup, PyDict.hasKey,
      PyDict.insert, executeNode, dictUpdate]
  exact ⟨hrun,
    C6_node_failure_aborts_without_later_outputs gpC6 pC6 [] _ _ hrun⟩

/-! ### Claim C5 -/

/-- C5 (amended): a successful `call_capability` never adds a *dict or
list* result whose serialized form exceeds the 10000-character threshold
to the capability cache (`_should_cache` refuses it); results of other
types are cached regardless of size, as the counterexample shows. -/
theorem C5_large_dict_or_list_results_never_cached (fw : Framework)
    (name : String) (args : List Value) (pid? : Option String)
    (use_cache : Bool) (kwargs : List (String × Value)) (v : Value)
    (fw' : Framework)
    (h : callCapability fw name args pid? use_cache kwargs = (.ok v, fw'))
    (hdl : isDictOrList v = true) (hlen : 10000 < (pyStr v).length) :
    fw'.capability_cache = fw.capability_cache := by
  have hsc : shouldCache name v = false := by
    simp [shouldCache, hdl, hlen]
  simp only [callCapability, raiseCapabilityError] at h
  split at h
  · injection h with h1 h2
    subst h2
    rfl
  · split at h
    · injection h with h1 h2
      subst h2
      rfl
    · split at h
      · injection h with h1 h2
        subst h2
        rfl
      · split at h
        · injection h with h1 h2
          subst h2
          rfl
        · split at h
          · injection h with h1 h2
            subst h2
            rfl
          · split at h
            · injection h with h1 h2
              subst h2
              rfl
            · injection h with h1 h2
              injection h1 with h1
              subst h1
              rw [hsc] at h2
              simp only [Bool.and_false, Bool.false_eq_true, if_false] at h2
              subst h2
              rfl

/-- A 10001-character string: its serialized form exceeds the 10000
character caching threshold. -/
def bigStr : String := String.mk (List.replicate 10001 'a')

/-- Framework for the C5 counterexample: one plugin whose `"big"` capability
returns a large *string* result. -/
def fwC5 : Framework :=
  { plugins :=
      [("p", ⟨"p", [("big", fun _ _ _ => .ok (.str bigStr))], [], true, false⟩)],
    global_capabilities := [("big", ["p"])],
    capability_cache := [], middleware_stack := [], validators := [],
    plugin_dependencies := [], metrics_calls := 0, metrics_errors := 0,
    metrics_cache_hits := 0, metrics_plugins_loaded := 0,
    metrics_plugin_calls := [], invocations := [] }

/-- C5 counterexample: a result whose serialized form has 10001 characters
(exceeding the threshold) **is** added to the capability cache, because
`_should_cache` applies its size check only to dict and list results —
"large results, of any type, are never cached" is false for strings. -/
theorem C5_large_string_cached_counterexample :
    10000 < (pyStr (Value.str bigStr)).length ∧
      PyDict.lookup (callCapability fwC5 "big" [] Option.none true
          []).2.capability_cache
        (generateCacheKey "big" [] [] Option.none) = some (Value.str bigStr) := by
  constructor
  · show 10000 < bigStr.length
    rw [bigStr, String.length_mk, List.length_replicate]
    omega
  · rfl

/-- Large list value for the C5 witness: serializes to 10005 characters. -/
def bigListVal : Value := .list [.str bigStr]

/-- Framework for the C5 witness: the `"big"` capability returns a large
*list* result. -/
def fwC5W : Framework :=
  { plugins :=
      [("p", ⟨"p", [("big", fun _ _ _ => .ok bigListVal)], [], true, false⟩)],
    global_capabilities := [("big", ["p"])],
    capability_cache := [], middleware_stack := [], validators := [],
    plugin_dependencies := [], metrics_calls := 0, metrics_errors := 0,
    metrics_cache_hits := 0, metrics_plugins_loaded := 0,
    metrics_plugin_calls := [], invocations := [] }

/-- Closed instantiation of `C5_large_dict_or_list_results_never_cached`:
the oversized list result is returned but not cached. -/
theorem C5_large_dict_or_list_results_never_cached_witness :
    isDictOrList bigListVal = true ∧ 10000 < (pyStr bigListVal).length ∧
      (callCapability fwC5W "big" [] Option.none true []).2.capability_cache =
        fwC5W.capability_cache := by
  have hlen : 10000 < (pyStr bigListVal).length := by
    show 10000 < ("[" ++ ("'" ++ bigStr ++ "'") ++ "]").length
    simp only [String.length_append, bigStr, String.length_mk,
      List.length_replicate]
    decide
  have h1 : (callCapability fwC5W "big" [] Option.none true []).1 =
      .ok bigListVal := rfl
  have h : callCapability fwC5W "big" [] Option.none true [] =
      (.ok bigListVal, (callCapability fwC5W "big" [] Option.none true []).2) := by
    rw [← h1]
  exact ⟨rfl, hlen,
    C5_large_dict_or_list_results_never_cached fwC5W "big" [] Option.none true
      [] bigListVal _ h rfl hlen⟩

/-! ### Claim C4 -/

/-- Framework for the C4 counterexample: the provider's `"big"` capability
returns an oversized list result (which `_should_cache` refuses). -/
def fwC4 : Framework :=
  { plugins :=
      [("p", ⟨"p", [("big", fun _ _ _ => .ok bigListVal)], [], true, false⟩)],
    global_capabilities := [("big", ["p"])],
    capability_cache := [], middleware_stack := [], validators := [],
    plugin_dependencies := [], metrics_calls := 0, metrics_errors := 0,
    metrics_cache_hits := 0, metrics_plugins_loaded := 0,
    metrics_plugin_calls := [], invocations := [] }

/-- The oversized list result fails `_should_cache`'s size check. -/
theorem shouldCache_bigListVal : shouldCache "big" bigListVal = false := by
  have hlen : 10000 < (pyStr bigListVal).length := by
    show 10000 < ("[" ++ ("'" ++ bigStr ++ "'") ++ "]").length
    simp only [String.length_append, bigStr, String.length_mk,
      List.length_replicate]
    decide
  have hdl : isDictOrList bigListVal = true := rfl
  simp [shouldCache, hdl, hlen]

/-- Framework state after the first C4 call: one handler invocation,
nothing cached. -/
def fwC4after1 : Framework :=
  { fwC4 with metrics_calls := 1, invocations := [(("p", "big"), 1)] }

/-- Framework state after the second, identical C4 call: two handler
invocations, still nothing cached and no cache hit. -/
def fwC4after2 : Framework :=
  { fwC4 with metrics_calls := 2, invocations := [(("p", "big"), 2)] }

/-- C4 counterexample: two `call_capability` invocations with
`use_cache=True` and identical capability, args and kwargs invoke the
provider's handler **twice**, not once: the first call's oversized list
result is refused by `_should_cache`, so nothing is cached and the second
call goes to the plugin again (and no cache hit is recorded). -/
theorem C4_large_result_invoked_twice_counterexample :
    callCapability fwC4 "big" [] Option.none true [] = (.ok bigListVal, fwC4after1) ∧
      callCapability fwC4after1 "big" [] Option.none true [] =
        (.ok bigListVal, fwC4after2) ∧
      fwC4after1.capability_cache = [] ∧
      PyDict.lookup fwC4after2.invocations ("p", "big") = some 2 ∧
      fwC4after2.metrics_cache_hits = 0 := by
  refine ⟨?_, ?_, rfl, rfl, rfl⟩
  · simp [callCapability, fwC4, fwC4after1, PyDict.lookup, PyDict.insert,
      applyMiddlewareChain, selectBestPlugin, selectBestPlugin.go,
      raiseCapabilityError, shouldCache_bigListVal]
  · simp [callCapability, fwC4, fwC4after1, fwC4after2, PyDict.lookup,
      PyDict.insert, applyMiddlewareChain, selectBestPlugin,
      selectBestPlugin.go, raiseCapabilityError, shouldCache_bigListVal]

/-- C4 (amended): with no middleware configured and an empty cache, if the
first `call_capability` with `use_cache=True` succeeds and its result
passes `_should_cache` (in particular any result that is not an oversized
dict/list — the counterexample shows oversized list results break the
original claim), then the first call invoked the chosen provider's
handler exactly once, and an identical second call is served from the
cache: it returns the same result, invokes no plugin (the invocation
counters are untouched), and records a cache-hit metric. -/
theorem C4_second_identical_call_served_from_cache (fw : Framework)
    (name : String) (args : List Value) (pid? : Option String)
    (kwargs : List (String × Value)) (v : Value) (fw1 : Framework)
    (hmw : fw.middleware_stack = [])
    (hcache : fw.capability_cache = [])
    (h1 : callCapability fw name args pid? true kwargs = (.ok v, fw1))
    (hsc : shouldCache name v = true) :
    callCapability fw1 name args pid? true kwargs =
      (.ok v,
        { fw1 with
          metrics_calls := fw1.metrics_calls + 1,
          metrics_cache_hits := fw1.metrics_cache_hits + 1 }) ∧
      ∃ target, fw1.invocations =
        PyDict.insert fw.invocations (target, name)
          (((PyDict.lookup fw.invocations (target, name)).getD 0) + 1) := by
  simp only [callCapability, raiseCapabilityError, hcache, hmw,
    applyMiddlewareChain, List.foldl, PyDict.lookup, if_true] at h1
  split at h1
  · simp at h1
  · split at h1
    · simp at h1
    · split at h1
      · simp at h1
      · split at h1
        · simp at h1
        · split at h1
          · simp at h1
          · injection h1 with hv hfw
            injection hv with hv
            subst hv
            rw [hsc] at hfw
            simp only [Bool.and_self, if_true, PyDict.insert, List.length_cons,
              List.length_nil] at hfw
            norm_num at hfw
            subst hfw
            refine ⟨?_, ⟨_, rfl⟩⟩
            simp only [callCapability, hmw, applyMiddlewareChain, List.foldl,
              PyDict.lookup, if_true]

/-- Framework for the C4 witness: a `"tick"` capability whose handler has a
side effect — it returns its own invocation count, so a second real
invocation would return a different value. -/
def fwC4W : Framework :=
  { plugins :=
      [("counter", ⟨"counter", [("tick", fun n _ _ => .ok (.int n))], [], true, false⟩)],
    global_capabilities := [("tick", ["counter"])],
    capability_cache := [], middleware_stack := [], validators := [],
    plugin_dependencies := [], metrics_calls := 0, metrics_errors := 0,
    metrics_cache_hits := 0, metrics_plugins_loaded := 0,
    metrics_plugin_calls := [], invocations := [] }

/-- Closed instantiation of `C4_second_identical_call_served_from_cache` on
the side-effecting counter provider: the second identical call returns the
first call's result from the cache. -/
theorem C4_second_identical_call_served_from_cache_witness :
    callCapability (callCapability fwC4W "tick" [] Option.none true []).2
        "tick" [] Option.none true [] =
      (.ok (Value.int 0),
        { (callCapability fwC4W "tick" [] Option.none true []).2 with
          metrics_calls :=
            (callCapability fwC4W "tick" [] Option.none true []).2.metrics_calls + 1,
          metrics_cache_hits :=
            (callCapability fwC4W "tick" [] Option.none true
              []).2.metrics_cache_hits + 1 }) ∧
      ∃ target, (callCapability fwC4W "tick" [] Option.none true []).2.invocations =
        PyDict.insert fwC4W.invocations (target, "tick")
          (((PyDict.lookup fwC4W.invocations (target, "tick")).getD 0) + 1) := by
  have ha : (callCapability fwC4W "tick" [] Option.none true []).1 =
      .ok (Value.int 0) := rfl
  have h1 : callCapability fwC4W "tick" [] Option.none true [] =
      (.ok (Value.int 0), (callCapability fwC4W "tick" [] Option.none true []).2) := by
    rw [← ha]
  exact C4_second_identical_call_served_from_cache fwC4W "tick" [] Option.none []
    (Value.int 0) _ rfl rfl h1 rfl

/-! ### Claim C9 -/

theorem PyDict.keys_erase_sublist {α β : Type} [DecidableEq α]
    (l : List (α × β)) (k : α) :
    ((PyDict.erase l k).map Prod.fst).Sublist (l.map Prod.fst) := by
  induction l with
  | nil => simp [PyDict.erase]
  | cons hd tl ih =>
    obtain ⟨k', v'⟩ := hd
    by_cases hk : k' = k
    · simp only [PyDict.erase, if_pos hk, List.map_cons]
      exact (List.sublist_cons_self _ _)
    · simp only [PyDict.erase, if_neg hk, List.map_cons]
      exact List.Sublist.cons₂ _ ih

theorem PyDict.keys_insert_present {α β : Type} [DecidableEq α]
    (l : List (α × β)) (k : α) (v w : β) (h : PyDict.lookup l k = some w) :
    (PyDict.insert l k v).map Prod.fst = l.map Prod.fst := by
  induction l with
  | nil => simp [PyDict.lookup] at h
  | cons hd tl ih =>
    obtain ⟨k', v'⟩ := hd
    by_cases hk : k' = k
    · subst hk
      simp [PyDict.insert]
    · simp only [PyDict.lookup, if_neg hk] at h
      simp [PyDict.insert, hk, ih h]

/-- A cleanup-loop iteration does not change the lookup at other keys. -/
theorem unregisterCapability_lookup_ne (pid : String)
    (g : List (String × List String)) (c : String × Handler) (x : String)
    (hx : x ≠ c.1) :
    PyDict.lookup (unregisterCapability pid g c) x = PyDict.lookup g x := by
  unfold unregisterCapability
  cases h : PyDict.lookup g c.1 with
  | none => rfl
  | some ids =>
    simp only []
    split
    · exact PyDict.lookup_erase_ne g c.1 x (fun he => hx he.symm)
    · exact PyDict.lookup_insert_ne g c.1 x _ (fun he => hx he.symm)

/-- A cleanup-loop iteration preserves key uniqueness of the index. -/
theorem unregisterCapability_keys_nodup (pid : String)
    (g : List (String × List String)) (c : String × Handler)
    (h : (g.map Prod.fst).Nodup) :
    ((unregisterCapability pid g c).map Prod.fst).Nodup := by
  unfold unregisterCapability
  cases hl : PyDict.lookup g c.1 with
  | none => exact h
  | some ids =>
    simp only []
    split
    · exact (PyDict.keys_erase_sublist g c.1).nodup h
    · rw [PyDict.keys_insert_present g c.1 _ ids hl]
      exact h

/-- Keys not named by any processed capability keep their lookup across the
whole cleanup loop. -/
theorem unregisterCapability_foldl_lookup_not_mem (pid : String)
    (caps : List (String × Handler)) (g : List (String × List String))
    (x : String) (hx : x ∉ caps.map Prod.fst) :
    PyDict.lookup (caps.foldl (unregisterCapability pid) g) x =
      PyDict.lookup g x := by
  induction caps generalizing g with
  | nil => rfl
  | cons c rest ih =>
    simp only [List.map_cons, List.mem_cons, not_or] at hx
    simp only [List.foldl_cons]
    rw [ih _ hx.2]
    exact unregisterCapability_lookup_ne pid g c x hx.1

/-- The cleanup loop preserves key uniqueness of the index. -/
theorem unregisterCapability_foldl_keys_nodup (pid : String)
    (caps : List (String × Handler)) (g : List (String × List String))
    (h : (g.map Prod.fst).Nodup) :
    (((caps.foldl (unregisterCapability pid) g)).map Prod.fst).Nodup := by
  induction caps generalizing g with
  | nil => exact h
  | cons c rest ih =>
    simp only [List.foldl_cons]
    exact ih _ (unregisterCapability_keys_nodup pid g c h)

/-- Pointwise description of the cleanup loop on a processed capability
name: the provider list loses `pid`'s first occurrence, and the entry is
deleted when that empties it. -/
theorem unregisterCapability_foldl_lookup_mem (pid : String)
    (caps : List (String × Handler)) (g : List (String × List String))
    (x : String) (hnd : (caps.map Prod.fst).Nodup)
    (hgnd : (g.map Prod.fst).Nodup) (hx : x ∈ caps.map Prod.fst) :
    PyDict.lookup (caps.foldl (unregisterCapability pid) g) x =
      (match PyDict.lookup g x with
        | Option.none => Option.none
        | some ids =>
          if (ids.erase pid).isEmpty then Option.none
          else some (ids.erase pid)) := by
  induction caps generalizing g with
  | nil => cases hx
  | cons c rest ih =>
    simp only [List.map_cons, List.mem_cons] at hx
    simp only [List.map_cons, List.nodup_cons] at hnd
    simp only [List.foldl_cons]
    by_cases hxc : x = c.1
    · subst hxc
      rw [unregisterCapability_foldl_lookup_not_mem pid rest _ _ hnd.1]
      unfold unregisterCapability
      cases hl : PyDict.lookup g c.1 with
      | none => simp [hl]
      | some ids =>
        simp only [hl]
        split
        · rw [PyDict.lookup_erase_self g c.1 hgnd]
        · rw [PyDict.lookup_insert]
    · rcases hx with hx | hx
      · exact absurd hx hxc
      · rw [ih _ hnd.2 (unregisterCapability_keys_nodup pid g c hgnd) hx]
        rw [unregisterCapability_lookup_ne pid g c x hxc]

/-- Specialization of the pointwise description when the entry exists. -/
theorem unregisterCapability_foldl_lookup_mem_some (pid : String)
    (caps : List (String × Handler)) (g : List (String × List String))
    (x : String) (ids : List String) (hnd : (caps.map Prod.fst).Nodup)
    (hgnd : (g.map Prod.fst).Nodup) (hx : x ∈ caps.map Prod.fst)
    (hg : PyDict.lookup g x = some ids) :
    PyDict.lookup (caps.foldl (unregisterCapability pid) g) x =
      (if (ids.erase pid).isEmpty then Option.none
        else some (ids.erase pid)) := by
  rw [unregisterCapability_foldl_lookup_mem pid caps g x hnd hgnd hx, hg]

/-- Specialization of the pointwise description when the entry is absent. -/
theorem unregisterCapability_foldl_lookup_mem_none (pid : String)
    (caps : List (String × Handler)) (g : List (String × List String))
    (x : String) (hnd : (caps.map Prod.fst).Nodup)
    (hgnd : (g.map Prod.fst).Nodup) (hx : x ∈ caps.map Prod.fst)
    (hg : PyDict.lookup g x = Option.none) :
    PyDict.lookup (caps.foldl (unregisterCapability pid) g) x = Option.none := by
  rw [unregisterCapability_foldl_lookup_mem pid caps g x hnd hgnd hx, hg]

/-- C9: unloading a plugin whose `cleanup()` does not raise removes its id
from every capability's provider list and deletes entries whose provider
list becomes empty — no empty provider-list entry persists.  The
hypotheses are the registry invariants that hold for every reachable
framework state: unique index keys, unique provider lists, no empty
entries, and an id listed only under capabilities its plugin has. -/
theorem C9_unload_removes_provider_entries (fw : Framework) (pid : String)
    (p : Plugin)
    (hreg : PyDict.lookup fw.plugins pid = some p)
    (hclean : p.cleanupRaises = false)
    (hgnd : (fw.global_capabilities.map Prod.fst).Nodup)
    (hcnd : (p.capabilities.map Prod.fst).Nodup)
    (hcons : ∀ c ids, PyDict.lookup fw.global_capabilities c = some ids →
      pid ∈ ids → c ∈ p.capabilities.map Prod.fst)
    (hido : ∀ c ids, PyDict.lookup fw.global_capabilities c = some ids →
      ids.Nodup)
    (hne : ∀ c, PyDict.lookup fw.global_capabilities c ≠ some []) :
    (unloadPlugin fw pid).1 = true ∧
      (∀ c ids',
        PyDict.lookup (unloadPlugin fw pid).2.global_capabilities c = some ids' →
          pid ∉ ids' ∧ ids' ≠ []) ∧
      (∀ c, PyDict.lookup fw.global_capabilities c = some [pid] →
        PyDict.lookup (unloadPlugin fw pid).2.global_capabilities c =
          Option.none) := by
  simp only [unloadPlugin, hreg, hclean, Bool.false_eq_true, if_false]
  refine ⟨trivial, ?_, ?_⟩
  · intro c ids' hl'
    by_cases hc : c ∈ p.capabilities.map Prod.fst
    · cases hg : PyDict.lookup fw.global_capabilities c with
      | none =>
        rw [unregisterCapability_foldl_lookup_mem_none pid _ _ c hcnd hgnd hc hg]
          at hl'
        cases hl'
      | some ids =>
        rw [unregisterCapability_foldl_lookup_mem_some pid _ _ c ids hcnd hgnd
          hc hg] at hl'
        split at hl'
        · cases hl'
        · rename_i hemp
          injection hl' with hl'
          subst hl'
          constructor
          · intro hmem
            exact (((hido c ids hg).mem_erase_iff).mp hmem).1 rfl
          · intro hnil
            rw [hnil] at hemp
            exact hemp rfl
    · rw [unregisterCapability_foldl_lookup_not_mem pid _ _ c hc] at hl'
      refine ⟨fun hmem => hc (hcons c ids' hl' hmem), ?_⟩
      intro hnil
      subst hnil
      exact hne c hl'
  · intro c hsol
    have hc : c ∈ p.capabilities.map Prod.fst :=
      hcons c [pid] hsol (by simp)
    rw [unregisterCapability_foldl_lookup_mem_some pid _ _ c [pid] hcnd hgnd hc hsol]
    simp

/-- Framework for the C9 witness: `"math"` provides `add` and `mul`;
`"other"` also provides `add`, so after unloading `"math"` the `add`
entry must shrink to `["other"]` and the `mul` entry must disappear. -/
def fwC9 : Framework :=
  { plugins :=
      [("math", ⟨"math",
          [("add", fun _ _ _ => .ok Value.none),
           ("mul", fun _ _ _ => .ok Value.none)], [], true, false⟩),
       ("other", ⟨"other", [("add", fun _ _ _ => .ok Value.none)], [], true, false⟩)],
    global_capabilities := [("add", ["math", "other"]), ("mul", ["math"])],
    capability_cache := [], middleware_stack := [], validators := [],
    plugin_dependencies := [], metrics_calls := 0, metrics_errors := 0,
    metrics_cache_hits := 0, metrics_plugins_loaded := 0,
    metrics_plugin_calls := [], invocations := [] }

/-- Closed instantiation of `C9_unload_removes_provider_entries` at the
concrete framework `fwC9`, unloading `"math"`. -/
theorem C9_unload_removes_provider_entries_witness :
    (unloadPlugin fwC9 "math").1 = true ∧
      (∀ c ids',
        PyDict.lookup (unloadPlugin fwC9 "math").2.global_capabilities c =
            some ids' → "math" ∉ ids' ∧ ids' ≠ []) ∧
      (∀ c, PyDict.lookup fwC9.global_capabilities c = some ["math"] →
        PyDict.lookup (unloadPlugin fwC9 "math").2.global_capabilities c =
          Option.none) := by
  refine C9_unload_removes_provider_entries fwC9 "math" _ rfl rfl
    (by decide) (by decide) ?_ ?_ ?_
  · intro c ids h
    simp only [fwC9, PyDict.lookup] at h
    split at h
    · rename_i hc
      subst hc
      injection h with h
      simp [← h]
    · split at h
      · rename_i hc
        subst hc
        injection h with h
        simp [← h]
      · cases h
  · intro c ids h
    simp only [fwC9, PyDict.lookup] at h
    split at h
    · injection h with h
      simp [← h]
    · split at h
      · injection h with h
        simp [← h]
      · cases h
  · intro c h
    simp only [fwC9, PyDict.lookup] at h
    split at h
    · injection h with h
      simp at h
    · split at h
      · injection h with h
        simp at h
      · cases h

/-! ### Claim C8 -/

theorem PyDict.not_mem_keys_of_lookup_none {α β : Type} [DecidableEq α]
    (l : List (α × β)) (k : α) (h : PyDict.lookup l k = Option.none) :
    k ∉ l.map Prod.fst := by
  intro hmem
  have := PyDict.hasKey_of_mem_keys l k hmem
  simp [PyDict.hasKey, h] at this

theorem PyDict.lookup_drop_none {α β : Type} [DecidableEq α]
    (l : List (α × β)) (k : α) (n : Nat) (h : PyDict.lookup l k = Option.none) :
    PyDict.lookup (l.drop n) k = Option.none := by
  apply PyDict.lookup_eq_none_of_not_mem_keys
  intro hmem
  apply PyDict.not_mem_keys_of_lookup_none l k h
  exact ((List.drop_sublist n l).map Prod.fst).subset hmem

/-- A capability call never touches the capability index, the middleware
chain, the plugin map, the validators, or the dependency record. -/
theorem callCapability_stable_fields (fw : Framework) (name : String)
    (args : List Value) (pid? : Option String) (use_cache : Bool)
    (kwargs : List (String × Value)) :
    (callCapability fw name args pid? use_cache kwargs).2.global_capabilities =
        fw.global_capabilities ∧
      (callCapability fw name args pid? use_cache kwargs).2.middleware_stack =
        fw.middleware_stack ∧
      (callCapability fw name args pid? use_cache kwargs).2.plugins =
        fw.plugins := by
  simp only [callCapability, raiseCapabilityError]
  repeat' split
  all_goals exact ⟨rfl, rfl, rfl⟩

/-- Bulk eviction keeps absent keys absent. -/
theorem cleanupCache_lookup_none (c : List (String × Value)) (key : String)
    (h : PyDict.lookup c key = Option.none) :
    PyDict.lookup (cleanupCache c) key = Option.none := by
  unfold cleanupCache
  split
  · exact PyDict.lookup_drop_none _ _ _ h
  · exact h

/-- Evaluation of a cache-missing `call_capability` forced to provider
`pid` whose handler succeeds: the result is returned, the provider's
invocation counter is bumped, and any key that was absent from the cache
and differs from this call's key stays absent. -/
theorem callCapability_forced_ok (fw : Framework) (name : String)
    (args : List Value) (kwargs : List (String × Value)) (pid : String)
    (avail : List String) (p : Plugin) (handler : Handler) (r : Value)
    (hmw : fw.middleware_stack = [])
    (hgc : PyDict.lookup fw.global_capabilities name = some avail)
    (hin : pid ∈ avail)
    (hplug : PyDict.lookup fw.plugins pid = some p)
    (hhand : PyDict.lookup p.capabilities name = some handler)
    (hmiss : PyDict.lookup fw.capability_cache
      (generateCacheKey name args kwargs (some pid)) = Option.none)
    (hres : handler ((PyDict.lookup fw.invocations (pid, name)).getD 0)
      args kwargs = .ok r) :
    (callCapability fw name args (some pid) true kwargs).1 = .ok r ∧
      (callCapability fw name args (some pid) true kwargs).2.invocations =
        PyDict.insert fw.invocations (pid, name)
          (((PyDict.lookup fw.invocations (pid, name)).getD 0) + 1) ∧
      (∀ key : String,
        key ≠ generateCacheKey name args kwargs (some pid) →
        PyDict.lookup fw.capability_cache key = Option.none →
        PyDict.lookup
          (callCapability fw name args (some pid) true kwargs).2.capability_cache
          key = Option.none) := by
  simp only [callCapability, raiseCapabilityError, hmiss, hgc, hmw,
    applyMiddlewareChain, List.foldl, hplug, hhand, hres, if_true, if_pos hin]
  refine ⟨trivial, by split <;> rfl, ?_⟩
  intro key hne hnone
  have hins : PyDict.lookup
      (PyDict.insert fw.capability_cache
        (generateCacheKey name args kwargs (some pid)) r) key = Option.none := by
    rw [PyDict.lookup_insert_ne _ _ _ _ (fun he => hne he.symm)]
    exact hnone
  split
  · split
    · exact cleanupCache_lookup_none _ _ hins
    · exact hins
  · exact hnone

/-- Evaluation of a cache-missing `call_capability` forced to provider
`pid` whose handler raises: the exception is re-raised, the invocation
counter is still bumped, and the cache is untouched. -/
theorem callCapability_forced_error (fw : Framework) (name : String)
    (args : List Value) (kwargs : List (String × Value)) (pid : String)
    (avail : List String) (p : Plugin) (handler : Handler) (e : String)
    (hmw : fw.middleware_stack = [])
    (hgc : PyDict.lookup fw.global_capabilities name = some avail)
    (hin : pid ∈ avail)
    (hplug : PyDict.lookup fw.plugins pid = some p)
    (hhand : PyDict.lookup p.capabilities name = some handler)
    (hmiss : PyDict.lookup fw.capability_cache
      (generateCacheKey name args kwargs (some pid)) = Option.none)
    (hres : handler ((PyDict.lookup fw.invocations (pid, name)).getD 0)
      args kwargs = .error e) :
    (callCapability fw name args (some pid) true kwargs).1 = .error e ∧
      (callCapability fw name args (some pid) true kwargs).2.invocations =
        PyDict.insert fw.invocations (pid, name)
          (((PyDict.lookup fw.invocations (pid, name)).getD 0) + 1) ∧
      (callCapability fw name args (some pid) true kwargs).2.capability_cache =
        fw.capability_cache := by
  simp only [callCapability, raiseCapabilityError, hmiss, hgc, hmw,
    applyMiddlewareChain, List.foldl, hplug, hhand, hres, if_true, if_pos hin]
  refine ⟨?_, ?_, ?_⟩ <;> trivial

/-- Description of `call_multiple`'s provider loop: under the registry
invariants (unique providers, each provider loaded and offering the
capability, no middleware, no pre-existing cache entries for the loop's
keys, distinct cache keys per provider), the loop appends exactly one
entry per provider, in order: a success entry with the handler's result,
or a failure entry capturing the handler's exception. -/
theorem callMultiple_fold_spec (name : String) (args : List Value)
    (kwargs : List (String × Value)) (beh : String → Except String Value)
    (avail : List String) :
    ∀ (rest : List String) (fw' : Framework) (acc : List CallEntry),
      rest.Nodup →
      (∀ pid ∈ rest, pid ∈ avail) →
      PyDict.lookup fw'.global_capabilities name = some avail →
      fw'.middleware_stack = [] →
      (∀ pid ∈ rest, ∃ p handler,
        PyDict.lookup fw'.plugins pid = some p ∧
        PyDict.lookup p.capabilities name = some handler ∧
        handler ((PyDict.lookup fw'.invocations (pid, name)).getD 0) args kwargs
          = beh pid) →
      (∀ pid ∈ rest,
        PyDict.lookup fw'.capability_cache
          (generateCacheKey name args kwargs (some pid)) = Option.none) →
      (∀ p₁ ∈ rest, ∀ p₂ ∈ rest,
        generateCacheKey name args kwargs (some p₁) =
          generateCacheKey name args kwargs (some p₂) → p₁ = p₂) →
      (rest.foldl
        (fun acc pid =>
          match callCapability acc.2 name args (some pid) true kwargs with
          | (.ok r, fw₂) => (acc.1 ++ [⟨pid, some r, Option.none, true⟩], fw₂)
          | (.error e, fw₂) => (acc.1 ++ [⟨pid, Option.none, some e, false⟩], fw₂))
        (acc, fw')).1 =
        acc ++ rest.map (fun pid =>
          match beh pid with
          | .ok r => ⟨pid, some r, Option.none, true⟩
          | .error e => ⟨pid, Option.none, some e, false⟩) := by
  intro rest
  induction rest with
  | nil =>
    intro fw' acc _ _ _ _ _ _ _
    simp
  | cons pid rest' ih =>
    intro fw' acc hnd hsub hgc hmw hplugs hcache hinj
    obtain ⟨p, handler, hplug, hhand, hres⟩ := hplugs pid (by simp)
    have hpidmem : pid ∈ avail := hsub pid (by simp)
    have hmiss := hcache pid (by simp)
    have hpidfresh : pid ∉ rest' := (List.nodup_cons.mp hnd).1
    have hstable := callCapability_stable_fields fw' name args (some pid) true kwargs
    simp only [List.foldl_cons, List.map_cons]
    cases hbeh : beh pid with
    | ok r =>
      rw [hbeh] at hres
      obtain ⟨h1, h2, h3⟩ := callCapability_forced_ok fw' name args kwargs pid
        avail p handler r hmw hgc hpidmem hplug hhand hmiss hres
      set fw₂ := (callCapability fw' name args (some pid) true kwargs).2
        with hfw2
      have hcall : callCapability fw' name args (some pid) true kwargs =
          (.ok r, fw₂) := by
        rw [hfw2, ← h1]
      simp only [hcall]
      rw [ih _ _ (List.nodup_cons.mp hnd).2
        (fun q hq => hsub q (by simp [hq]))
        (by rw [hstable.1]; exact hgc)
        (by rw [hstable.2.1]; exact hmw)
        ?hplugs ?hcache
        (fun q₁ hq₁ q₂ hq₂ => hinj q₁ (by simp [hq₁]) q₂ (by simp [hq₂]))]
      · simp
      case hplugs =>
        intro q hq
        obtain ⟨pq, hqh, hq1, hq2, hq3⟩ := hplugs q (by simp [hq])
        refine ⟨pq, hqh, ?_, hq2, ?_⟩
        · rw [hstable.2.2]
          exact hq1
        · rw [h2, PyDict.lookup_insert_ne]
          · exact hq3
          · intro he
            injection he with he1 he2
            exact hpidfresh (he1 ▸ hq)
      case hcache =>
        intro q hq
        refine h3 _ ?_ (hcache q (by simp [hq]))
        intro he
        exact hpidfresh ((hinj q (by simp [hq]) pid (by simp) he) ▸ hq)
    | error e =>
      rw [hbeh] at hres
      obtain ⟨h1, h2, h3⟩ := callCapability_forced_error fw' name args kwargs pid
        avail p handler e hmw hgc hpidmem hplug hhand hmiss hres
      set fw₂ := (callCapability fw' name args (some pid) true kwargs).2
        with hfw2
      have hcall : callCapability fw' name args (some pid) true kwargs =
          (.error e, fw₂) := by
        rw [hfw2, ← h1]
      simp only [hcall]
      rw [ih _ _ (List.nodup_cons.mp hnd).2
        (fun q hq => hsub q (by simp [hq]))
        (by rw [hstable.1]; exact hgc)
        (by rw [hstable.2.1]; exact hmw)
        ?hplugs ?hcache
        (fun q₁ hq₁ q₂ hq₂ => hinj q₁ (by simp [hq₁]) q₂ (by simp [hq₂]))]
      · simp
      case hplugs =>
        intro q hq
        obtain ⟨pq, hqh, hq1, hq2, hq3⟩ := hplugs q (by simp [hq])
        refine ⟨pq, hqh, ?_, hq2, ?_⟩
        · rw [hstable.2.2]
          exact hq1
        · rw [h2, PyDict.lookup_insert_ne]
          · exact hq3
          · intro he
            injection he with he1 he2
            exact hpidfresh (he1 ▸ hq)
      case hcache =>
        intro q hq
        rw [h3]
        exact hcache q (by simp [hq])

/-- C8: for a capability with `N` registered providers (each loaded,
offering the capability, and behaving deterministically per `beh` at its
current invocation count; fresh cache, no middleware, distinct cache
keys), `call_multiple` returns one entry per provider that existed at
call start, in provider order (`N` entries); when exactly the `k`-th
provider's invocation raises `e` and every other provider `i` returns
`r i`, then exactly the `k`-th entry has `success = False` with the error
captured, and every other entry has `success = True` with its provider's
result — no exception propagates to the caller (the function totally
returns this list). -/
theorem C8_call_multiple_isolates_provider_failures (fw : Framework)
    (name : String) (args : List Value) (kwargs : List (String × Value))
    (providers : List String) (k : Nat) (e : String) (r : Nat → Value)
    (beh : String → Except String Value)
    (hprov : PyDict.lookup fw.global_capabilities name = some providers)
    (hnd : providers.Nodup)
    (hmw : fw.middleware_stack = [])
    (hcache : fw.capability_cache = [])
    (hplugs : ∀ pid ∈ providers, ∃ p handler,
      PyDict.lookup fw.plugins pid = some p ∧
      PyDict.lookup p.capabilities name = some handler ∧
      handler ((PyDict.lookup fw.invocations (pid, name)).getD 0) args kwargs
        = beh pid)
    (hinj : ∀ p₁ ∈ providers, ∀ p₂ ∈ providers,
      generateCacheKey name args kwargs (some p₁) =
        generateCacheKey name args kwargs (some p₂) → p₁ = p₂)
    (hbeh_ok : ∀ i pid, providers[i]? = some pid → i ≠ k → beh pid = .ok (r i))
    (hbeh_err : ∀ pid, providers[k]? = some pid → beh pid = .error e) :
    (callMultiple fw name args kwargs).1.length = providers.length ∧
      (callMultiple fw name args kwargs).1.map CallEntry.plugin_id = providers ∧
      (∀ i pid, providers[i]? = some pid →
        (callMultiple fw name args kwargs).1[i]? =
          some (if i = k then ⟨pid, Option.none, some e, false⟩
            else ⟨pid, some (r i), Option.none, true⟩)) := by
  have hdesc : (callMultiple fw name args kwargs).1 =
      providers.map (fun pid =>
        match beh pid with
        | .ok v => (⟨pid, some v, Option.none, true⟩ : CallEntry)
        | .error err => ⟨pid, Option.none, some err, false⟩) := by
    simp only [callMultiple, hprov]
    rw [callMultiple_fold_spec name args kwargs beh providers providers fw []
      hnd (fun q hq => hq) hprov hmw hplugs
      (fun q hq => by rw [hcache]; rfl) hinj]
    simp
  refine ⟨?_, ?_, ?_⟩
  · rw [hdesc, List.length_map]
  · rw [hdesc, List.map_map]
    conv_rhs => rw [← List.map_id providers]
    apply List.map_congr_left
    intro pid hpid
    simp only [Function.comp_apply, id_eq]
    cases hb : beh pid <;> simp [hb]
  · intro i pid hi
    rw [hdesc, List.getElem?_map, hi]
    simp only [Option.map_some']
    by_cases hik : i = k
    · subst hik
      rw [hbeh_err pid hi]
      simp
    · rw [hbeh_ok i pid hi hik]
      simp [hik]

/-- Framework for the C8 witness: three providers of `"work"`; `"p2"`'s
handler raises, the others return distinct results. -/
def fwC8 : Framework :=
  { plugins :=
      [("p1", ⟨"p1", [("work", fun _ _ _ => .ok (.int 10))], [], true, false⟩),
       ("p2", ⟨"p2", [("work", fun _ _ _ => .error "boom")], [], true, false⟩),
       ("p3", ⟨"p3", [("work", fun _ _ _ => .ok (.int 30))], [], true, false⟩)],
    global_capabilities := [("work", ["p1", "p2", "p3"])],
    capability_cache := [], middleware_stack := [], validators := [],
    plugin_dependencies := [], metrics_calls := 0, metrics_errors := 0,
    metrics_cache_hits := 0, metrics_plugins_loaded := 0,
    metrics_plugin_calls := [], invocations := [] }

/-- Behaviour table of the C8 witness providers. -/
def behC8 : String → Except String Value := fun pid =>
  if pid = "p1" then .ok (.int 10)
  else if pid = "p2" then .error "boom"
  else .ok (.int 30)

/-- Per-position results of the C8 witness providers. -/
def rC8 : Nat → Value := fun i => if i = 0 then .int 10 else .int 30

/-- Closed instantiation of `C8_call_multiple_isolates_provider_failures`:
three providers, the second raises, and `call_multiple` returns three
entries in provider order with exactly the second marked failed. -/
theorem C8_call_multiple_isolates_provider_failures_witness :
    (callMultiple fwC8 "work" [] []).1.length = ["p1", "p2", "p3"].length ∧
      (callMultiple fwC8 "work" [] []).1.map CallEntry.plugin_id =
        ["p1", "p2", "p3"] ∧
      (∀ i pid, ["p1", "p2", "p3"][i]? = some pid →
        (callMultiple fwC8 "work" [] []).1[i]? =
          some (if i = 1 then ⟨pid, Option.none, some "boom", false⟩
            else ⟨pid, some (rC8 i), Option.none, true⟩)) := by
  refine C8_call_multiple_isolates_provider_failures fwC8 "work" [] []
    ["p1", "p2", "p3"] 1 "boom" rC8 behC8 rfl (by decide) rfl rfl ?_ ?_ ?_ ?_
  · intro pid hpid
    simp only [List.mem_cons, List.not_mem_nil, or_false] at hpid
    rcases hpid with h | h | h <;> subst h
    · exact ⟨_, _, rfl, rfl, rfl⟩
    · exact ⟨_, _, rfl, rfl, rfl⟩
    · exact ⟨_, _, rfl, rfl, rfl⟩
  · intro p₁ h₁ p₂ h₂ he
    simp only [List.mem_cons, List.not_mem_nil, or_false] at h₁ h₂
    rcases h₁ with h | h | h <;> subst h <;>
      rcases h₂ with h | h | h <;> subst h <;>
      first
        | rfl
        | exact absurd he (by decide)
  · intro i pid hi hik
    match i with
    | 0 =>
      simp only [List.getElem?_cons_zero, Option.some.injEq] at hi
      subst hi
      rfl
    | 1 => exact absurd rfl hik
    | 2 =>
      simp only [List.getElem?_cons_succ, List.getElem?_cons_zero,
        Option.some.injEq] at hi
      subst hi
      rfl
    | n + 3 =>
      simp only [List.getElem?_cons_succ, List.getElem?_nil] at hi
      cases hi
  · intro pid hi
    simp only [List.getElem?_cons_succ, List.getElem?_cons_zero,
      Option.some.injEq] at hi
    subst hi
    rfl
